import Mathlib

/-
Verification of the Trickle dissemination app
(src/userland/examples/trickle/main.c) against its specification.

The trickle_state struct and every handler are embedded as executable
Lean definitions.  Machine integers: the struct fields i, t, c are
uint32_t and are modelled as Nat with an explicit % 2^32 at every
arithmetic write; val is a C int and is modelled as Int (no reachable
arithmetic on it can overflow).  The random source (rng_sync) and its
possible failure are threaded as explicit parameters rnd and rngOk.
Side effects (arming a timer, radio transmission, the gpio probe) are
returned as an explicit event list.
-/

namespace Trickle

/-- Modulus of the uint32_t fields of trickle_state. -/
def U32 : Nat := 2 ^ 32

/-- Constant I_MIN from main.c line 25 (ms). -/
def I_MIN : Nat := 1000

/-- Constant I_MAX from main.c line 26 (number of doublings). -/
def I_MAX : Nat := 8

/-- Redundancy constant K from main.c line 27. -/
def K : Nat := 2

/-- Constant SRC_ADDR from main.c line 20. -/
def SRC_ADDR : Nat := 0x1501

/-- The trickle_state struct (main.c lines 29-36), together with the
global START_TEST flag (line 39) that interval_end reads and writes.
The two tock_timer_t handles carry no algorithmic state and are
modelled by the emitted timer events instead. -/
structure trickle_state where
  i : Nat
  t : Nat
  c : Nat
  val : Int
  start_test : Bool
deriving DecidableEq

/-- Observable effects of the handlers: set_timer arming one of the two
timers (ms, and whether it is the interval timer), a radio transmission
of a payload, and the gpio probe used for instrumentation. -/
inductive Event where
  | timerSet (ms : Nat) (isIntervalTimer : Bool)
  | sent (payload : Int)
  | gpioSet
deriving DecidableEq

/-- Global I_MAX_VAL as computed by initialize_state (lines 75-79):
start from I_MIN and double I_MAX times, in uint32_t arithmetic. -/
def I_MAX_VAL : Nat := (fun v => (2 * v) % U32)^[I_MAX] I_MIN

/-- initialize_state (lines 69-81): i = I_MIN, t = 0, c = 0, val = 0.
START_TEST is statically initialized to true (line 39). -/
def initialize_state : trickle_state :=
  { i := I_MIN, t := 0, c := 0, val := 0, start_test := true }

/-- interval_start (lines 83-95): reset c, draw a fresh uint32_t t from
the rng (on rng failure the zero-initialized local t is kept), set
t := t % (i/2) + i/2, then arm the t timer for t ms and the interval
timer for i ms. -/
def interval_start (s : trickle_state) (rnd : Nat) (rngOk : Bool) :
    trickle_state × List Event :=
  let t0 : Nat := if rngOk then rnd % U32 else 0
  let tNew : Nat := (t0 % (s.i / 2) + s.i / 2) % U32
  ({ s with c := 0, t := tNew },
   [Event.timerSet tNew false, Event.timerSet s.i true])

/-- interval_t (lines 105-109), the t-timer (wait point) handler: if
c < K, transmit val; the state is never changed. -/
def interval_t (s : trickle_state) : trickle_state × List Event :=
  (s, if s.c < K then [Event.sent s.val] else [])

/-- consistent_transmission (lines 175-178): increment the heard
counter c (uint32_t). -/
def consistent_transmission (s : trickle_state) : trickle_state :=
  { s with c := (s.c + 1) % U32 }

/-- inconsistent_transmission (lines 180-194): adopt the received value
when it is larger than the local one (with the gpio probe), then, if
i > I_MIN, reset i to I_MIN and start a new interval. -/
def inconsistent_transmission (s : trickle_state) (v : Int) (rnd : Nat)
    (rngOk : Bool) : trickle_state × List Event :=
  let s1 : trickle_state := if s.val < v then { s with val := v } else s
  let e1 : List Event := if s.val < v then [Event.gpioSet] else []
  if I_MIN < s1.i then
    let r := interval_start { s1 with i := I_MIN } rnd rngOk
    (r.1, e1 ++ r.2)
  else (s1, e1)

/-- Doubling and clamping part of interval_end (lines 113-125), before
the final call to interval_start: i := 2*i (uint32_t); if i exceeds
I_MAX_VAL it is clamped to I_MAX_VAL, and the START_TEST injection
branch runs only when SRC_ADDR equals 0x1500, which it does not. -/
def interval_end_pre (s : trickle_state) (rnd : Nat) (rngOk : Bool) :
    trickle_state × List Event :=
  let s1 : trickle_state := { s with i := (2 * s.i) % U32 }
  if I_MAX_VAL < s1.i then
    let s2 : trickle_state := { s1 with i := I_MAX_VAL }
    if s2.start_test && (SRC_ADDR == 0x1500) then
      let r := inconsistent_transmission s2 (s2.val + 1) rnd rngOk
      ({ r.1 with start_test := false }, r.2 ++ [Event.gpioSet])
    else (s2, [])
  else (s1, [])

/-- interval_end (lines 113-127): double and clamp i, then restart the
interval. -/
def interval_end (s : trickle_state) (rnd : Nat) (rngOk : Bool) :
    trickle_state × List Event :=
  let p := interval_end_pre s rnd rngOk
  let r := interval_start p.1 rnd rngOk
  (r.1, p.2 ++ r.2)

/-- Value-level body of receive_frame (lines 167-172), after address
filtering and length check: classify the received value against the
local one and dispatch. -/
def receive_value (s : trickle_state) (v : Int) (rnd : Nat)
    (rngOk : Bool) : trickle_state × List Event :=
  if s.val = v then (consistent_transmission s, [])
  else inconsistent_transmission s v rnd rngOk

/-- Kind of an armed timer: the wait-point (t) timer or the interval
(i) timer, dispatched in set_timer (lines 97-103). -/
inductive TKind where
  | tTimer
  | iTimer
deriving DecidableEq

/-- Modelled from the spec: the timer library behind timer_in is not
under src; per the spec (TimerScheduler contract and concurrency
section) each armed timer fires exactly once and the code performs no
cancellation (the comment in interval_start about cancelling timers has
no corresponding call).  Sys carries the trickle_state together with
the multiset of pending timers; epoch is a ghost counter of
interval_start invocations, and each pending timer is tagged with the
ghost epoch at which it was armed, so that staleness is expressible. -/
structure Sys where
  st : trickle_state
  epoch : Nat
  pending : List (TKind × Nat)
deriving DecidableEq

/-- System-level interval_start: the state change of interval_start,
a ghost epoch bump, and both timers armed under the new epoch, with
previously pending timers left in place (no cancellation). -/
def sys_interval_start (y : Sys) (rnd : Nat) (rngOk : Bool) :
    Sys × List Event :=
  let r := interval_start y.st rnd rngOk
  ({ st := r.1, epoch := y.epoch + 1,
     pending := y.pending
       ++ [(TKind.tTimer, y.epoch + 1), (TKind.iTimer, y.epoch + 1)] },
   r.2)

/-- System-level interval_end: doubling and clamping as in
interval_end_pre, then sys_interval_start. -/
def sys_interval_end (y : Sys) (rnd : Nat) (rngOk : Bool) :
    Sys × List Event :=
  let p := interval_end_pre y.st rnd rngOk
  let r := sys_interval_start { y with st := p.1 } rnd rngOk
  (r.1, p.2 ++ r.2)

/-- System-level receive_frame body: consistent receptions touch no
timers; inconsistent ones mirror inconsistent_transmission, routing its
interval_start through sys_interval_start. -/
def sys_receive (y : Sys) (v : Int) (rnd : Nat) (rngOk : Bool) :
    Sys × List Event :=
  if y.st.val = v then ({ y with st := consistent_transmission y.st }, [])
  else
    let s1 : trickle_state :=
      if y.st.val < v then { y.st with val := v } else y.st
    let e1 : List Event := if y.st.val < v then [Event.gpioSet] else []
    if I_MIN < s1.i then
      let r := sys_interval_start { y with st := { s1 with i := I_MIN } }
        rnd rngOk
      (r.1, e1 ++ r.2)
    else ({ y with st := s1 }, e1)

/-- Firing a pending timer: the timer is consumed, and the registered
callback runs unconditionally, exactly as t_timer_fired and
interval_timer_fired (lines 52-66) do - there is no epoch or staleness
check in the code. -/
def sys_fire (y : Sys) (k : TKind) (e : Nat) (rnd : Nat) (rngOk : Bool) :
    Sys × List Event :=
  let y0 : Sys := { y with pending := y.pending.erase (k, e) }
  match k with
  | TKind.tTimer =>
      let r := interval_t y0.st
      ({ y0 with st := r.1 }, r.2)
  | TKind.iTimer => sys_interval_end y0 rnd rngOk

/-- The Sys value at the top of main, before interval_start is called
(lines 227-229). -/
def sys_init : Sys := { st := initialize_state, epoch := 0, pending := [] }

/-- Reachable system states: main initializes the state and calls
interval_start once; thereafter any pending timer may fire and any
value may be received.  Received values come from a single unsigned
char of the payload, hence lie in [0, 256). -/
inductive Reach : Sys → Prop where
  | init (rnd : Nat) (rngOk : Bool) :
      Reach (sys_interval_start sys_init rnd rngOk).1
  | fire (y : Sys) (k : TKind) (e : Nat) (rnd : Nat) (rngOk : Bool) :
      Reach y → (k, e) ∈ y.pending → Reach (sys_fire y k e rnd rngOk).1
  | recv (y : Sys) (v : Int) (rnd : Nat) (rngOk : Bool) :
      Reach y → 0 ≤ v → v < 256 → Reach (sys_receive y v rnd rngOk).1

/-- I_MAX_VAL evaluates to 256000 = 1000 * 2 ^ 8. -/
theorem I_MAX_VAL_eq : I_MAX_VAL = 256000 := by decide

/-- The spec cap interval_min * 2 ^ doublings coincides with the
computed I_MAX_VAL. -/
theorem cap_eq : I_MIN * 2 ^ I_MAX = I_MAX_VAL := by decide

/-- The START_TEST injection guard is statically false: SRC_ADDR is
0x1501, not 0x1500. -/
theorem src_addr_check : (SRC_ADDR == 0x1500) = false := rfl

/-- interval_start leaves i unchanged. -/
theorem interval_start_i (s : trickle_state) (rnd : Nat) (rngOk : Bool) :
    ((interval_start s rnd rngOk).1).i = s.i := rfl

/-- interval_start leaves val unchanged. -/
theorem interval_start_val (s : trickle_state) (rnd : Nat) (rngOk : Bool) :
    ((interval_start s rnd rngOk).1).val = s.val := rfl

/-- interval_start resets c to zero. -/
theorem interval_start_c (s : trickle_state) (rnd : Nat) (rngOk : Bool) :
    ((interval_start s rnd rngOk).1).c = 0 := rfl

/-- The wait point chosen by interval_start, explicitly. -/
theorem interval_start_t (s : trickle_state) (rnd : Nat) (rngOk : Bool) :
    ((interval_start s rnd rngOk).1).t
      = ((if rngOk then rnd % U32 else 0) % (s.i / 2) + s.i / 2) % U32 := rfl

/-- interval_end_pre only doubles and clamps i: the injection branch is
dead because SRC_ADDR is not 0x1500, and no events are emitted. -/
theorem interval_end_pre_eq (s : trickle_state) (rnd : Nat) (rngOk : Bool) :
    interval_end_pre s rnd rngOk
      = ({ s with i := if I_MAX_VAL < (2 * s.i) % U32 then I_MAX_VAL
                       else (2 * s.i) % U32 }, []) := by
  simp only [interval_end_pre, src_addr_check, Bool.and_false,
    Bool.false_eq_true, if_false]
  split
  · rfl
  · rfl

/-- Numeric bounds on the wait point expression of interval_start. -/
theorem wait_point_bounds (i0 t0 : Nat) (h2 : 2 ≤ i0) (hU : i0 < U32) :
    i0 / 2 ≤ (t0 % (i0 / 2) + i0 / 2) % U32
      ∧ (t0 % (i0 / 2) + i0 / 2) % U32 < i0 := by
  have hpos : 0 < i0 / 2 := Nat.div_pos h2 (by norm_num)
  have hmod : t0 % (i0 / 2) < i0 / 2 := Nat.mod_lt _ hpos
  have hlt : t0 % (i0 / 2) + i0 / 2 < i0 := by omega
  have hid : (t0 % (i0 / 2) + i0 / 2) % U32 = t0 % (i0 / 2) + i0 / 2 :=
    Nat.mod_eq_of_lt (lt_trans hlt hU)
  omega

/-- Numeric value of I_MIN. -/
theorem I_MIN_eq : I_MIN = 1000 := rfl

/-- Numeric value of U32. -/
theorem U32_eq : U32 = 4294967296 := by norm_num [U32]

/-- The system-level interval_start applies interval_start to the
carried state. -/
theorem sys_interval_start_st (y : Sys) (rnd : Nat) (rngOk : Bool) :
    ((sys_interval_start y rnd rngOk).1).st = (interval_start y.st rnd rngOk).1 := rfl

/-- Firing the t timer never changes the carried state. -/
theorem sys_fire_tTimer_st (y : Sys) (e : Nat) (rnd : Nat) (rngOk : Bool) :
    ((sys_fire y TKind.tTimer e rnd rngOk).1).st = y.st := rfl

/-- Firing the interval timer applies interval_end to the carried
state. -/
theorem sys_fire_iTimer_st (y : Sys) (e : Nat) (rnd : Nat) (rngOk : Bool) :
    ((sys_fire y TKind.iTimer e rnd rngOk).1).st
      = (interval_end y.st rnd rngOk).1 := rfl

/-- The system-level reception applies receive_value to the carried
state. -/
theorem sys_receive_st (y : Sys) (v : Int) (rnd : Nat) (rngOk : Bool) :
    ((sys_receive y v rnd rngOk).1).st = (receive_value y.st v rnd rngOk).1 := by
  unfold sys_receive receive_value inconsistent_transmission
  split
  · rfl
  · dsimp only
    split <;> split <;> rfl

/-- The interval-bound invariant on the struct. -/
def Inv (s : trickle_state) : Prop := I_MIN ≤ s.i ∧ s.i ≤ I_MAX_VAL

/-- The initial state satisfies the invariant. -/
theorem inv_initialize : Inv initialize_state := by
  constructor <;> decide

/-- interval_start preserves the invariant. -/
theorem inv_interval_start (s : trickle_state) (rnd : Nat) (rngOk : Bool)
    (h : Inv s) : Inv ((interval_start s rnd rngOk).1) := by
  unfold Inv at h ⊢
  rwa [interval_start_i]

/-- The i component after interval_end, explicitly. -/
theorem interval_end_i (s : trickle_state) (rnd : Nat) (rngOk : Bool) :
    ((interval_end s rnd rngOk).1).i
      = if I_MAX_VAL < (2 * s.i) % U32 then I_MAX_VAL
        else (2 * s.i) % U32 := by
  show ((interval_start (interval_end_pre s rnd rngOk).1 rnd rngOk).1).i = _
  rw [interval_start_i, interval_end_pre_eq]

/-- interval_end preserves the invariant. -/
theorem inv_interval_end (s : trickle_state) (rnd : Nat) (rngOk : Bool)
    (h : Inv s) : Inv ((interval_end s rnd rngOk).1) := by
  obtain ⟨h1, h2⟩ := h
  rw [I_MAX_VAL_eq] at h2
  rw [I_MIN_eq] at h1
  have hm : (2 * s.i) % U32 = 2 * s.i :=
    Nat.mod_eq_of_lt (by rw [U32_eq]; omega)
  unfold Inv
  rw [interval_end_i, hm, I_MAX_VAL_eq, I_MIN_eq]
  split <;> constructor <;> omega

/-- The i component after receive_value is either unchanged or reset
to I_MIN. -/
theorem receive_value_i (s : trickle_state) (v : Int) (rnd : Nat)
    (rngOk : Bool) :
    ((receive_value s v rnd rngOk).1).i = s.i
      ∨ ((receive_value s v rnd rngOk).1).i = I_MIN := by
  unfold receive_value inconsistent_transmission
  split
  · left; rfl
  · dsimp only
    split <;> split
    · right; rw [interval_start_i]
    · left; rfl
    · right; rw [interval_start_i]
    · left; rfl

/-- receive_value preserves the invariant. -/
theorem inv_receive (s : trickle_state) (v : Int) (rnd : Nat) (rngOk : Bool)
    (h : Inv s) : Inv ((receive_value s v rnd rngOk).1) := by
  obtain ⟨h1, h2⟩ := h
  rcases receive_value_i s v rnd rngOk with hi | hi <;> unfold Inv <;> rw [hi]
  · exact ⟨h1, h2⟩
  · exact ⟨le_refl I_MIN, by decide⟩

/-- Every reachable state satisfies the interval-bound invariant. -/
theorem reach_inv (y : Sys) (h : Reach y) : Inv y.st := by
  induction h with
  | init rnd rngOk =>
      rw [sys_interval_start_st]
      exact inv_interval_start _ _ _ inv_initialize
  | fire y k e rnd rngOk hr hmem ih =>
      cases k
      · rw [sys_fire_tTimer_st]; exact ih
      · rw [sys_fire_iTimer_st]; exact inv_interval_end _ _ _ ih
  | recv y v rnd rngOk hr h0 h1 ih =>
      rw [sys_receive_st]; exact inv_receive _ _ _ _ ih

/-- The value component after receive_value: adopted exactly when the
received value is strictly larger. -/
theorem receive_value_val (s : trickle_state) (v : Int) (rnd : Nat)
    (rngOk : Bool) :
    ((receive_value s v rnd rngOk).1).val = if s.val < v then v else s.val := by
  by_cases h1 : s.val = v
  · have hnl : ¬ s.val < v := by rw [h1]; exact lt_irrefl v
    simp [receive_value, h1, consistent_transmission, hnl]
  · by_cases h2 : s.val < v <;> by_cases h3 : I_MIN < s.i <;>
      simp [receive_value, h1, inconsistent_transmission, h2, h3,
        interval_start]

/-- C2: when the wait-point timer fires, the state is untouched and the
node transmits current_value if and only if heard_count is below the
redundancy constant K. -/
theorem wait_point_transmits_iff (s : trickle_state) :
    ((interval_t s).1 = s)
    ∧ ((interval_t s).2 = if s.c < K then [Event.sent s.val] else [])
    ∧ ((∃ p, Event.sent p ∈ (interval_t s).2) ↔ s.c < K) := by
  refine ⟨rfl, rfl, ?_, ?_⟩
  · rintro ⟨p, hp⟩
    by_contra h
    simp [interval_t, if_neg h] at hp
  · intro h
    exact ⟨s.val, by simp [interval_t, if_pos h]⟩

/-- C7: when the rng fails, interval_start still completes with
wait_point equal to the midpoint i / 2, heard_count reset, and both
timers armed. -/
theorem rng_failure_midpoint (s : trickle_state) (rnd : Nat)
    (h : s.i < U32) :
    interval_start s rnd false
      = ({ s with c := 0, t := s.i / 2 },
         [Event.timerSet (s.i / 2) false, Event.timerSet s.i true]) := by
  have ht : ((0 : Nat) % (s.i / 2) + s.i / 2) % U32 = s.i / 2 := by
    rw [Nat.zero_mod, Nat.zero_add]
    exact Nat.mod_eq_of_lt (lt_of_le_of_lt (Nat.div_le_self _ _) h)
  simp only [interval_start, Bool.false_eq_true, if_false, ht]

/-- Witness for C7 at the freshly initialized state. -/
theorem rng_failure_midpoint_witness :
    initialize_state.i < U32
    ∧ interval_start initialize_state 7 false
        = ({ initialize_state with c := 0, t := initialize_state.i / 2 },
           [Event.timerSet (initialize_state.i / 2) false,
            Event.timerSet initialize_state.i true]) :=
  ⟨by decide, rng_failure_midpoint initialize_state 7 (by decide)⟩

/-- C8: a consistent reception only increments heard_count; doing it
twice adds two and leaves value, interval and wait point unchanged. -/
theorem consistent_reception_frame :
    (∀ s : trickle_state,
        consistent_transmission s = { s with c := (s.c + 1) % U32 })
    ∧ (∀ (s : trickle_state) (v : Int) (rnd : Nat) (rngOk : Bool),
        s.val = v →
        receive_value s v rnd rngOk = (consistent_transmission s, []))
    ∧ (∀ s : trickle_state, s.c + 2 < U32 →
        (consistent_transmission (consistent_transmission s)).c = s.c + 2
          ∧ (consistent_transmission (consistent_transmission s)).val = s.val
          ∧ (consistent_transmission (consistent_transmission s)).i = s.i
          ∧ (consistent_transmission (consistent_transmission s)).t = s.t) := by
  refine ⟨fun s => rfl, ?_, ?_⟩
  · intro s v rnd rngOk h
    unfold receive_value
    rw [if_pos h]
  · intro s h
    refine ⟨?_, rfl, rfl, rfl⟩
    show ((s.c + 1) % U32 + 1) % U32 = s.c + 2
    rw [U32_eq] at h ⊢
    omega

/-- Witness for C8 at the freshly initialized state. -/
theorem consistent_reception_frame_witness :
    (initialize_state.val = 0
      ∧ receive_value initialize_state 0 3 true
          = (consistent_transmission initialize_state, []))
    ∧ (initialize_state.c + 2 < U32
      ∧ (consistent_transmission (consistent_transmission initialize_state)).c
          = initialize_state.c + 2) :=
  ⟨⟨rfl, consistent_reception_frame.2.1 initialize_state 0 3 true rfl⟩,
   ⟨by decide, (consistent_reception_frame.2.2 initialize_state (by decide)).1⟩⟩

/-- C9: current_value is preserved by both timer handlers, by
interval_start and by consistent receptions, and a reception changes it
only by adopting a strictly larger received value. -/
theorem current_value_only_adoption :
    (∀ s : trickle_state, ((interval_t s).1).val = s.val)
    ∧ (∀ (s : trickle_state) (rnd : Nat) (rngOk : Bool),
        ((interval_end s rnd rngOk).1).val = s.val)
    ∧ (∀ (s : trickle_state) (rnd : Nat) (rngOk : Bool),
        ((interval_start s rnd rngOk).1).val = s.val)
    ∧ (∀ s : trickle_state, (consistent_transmission s).val = s.val)
    ∧ (∀ (s : trickle_state) (v : Int) (rnd : Nat) (rngOk : Bool),
        ((receive_value s v rnd rngOk).1).val = s.val
          ∨ (((receive_value s v rnd rngOk).1).val = v ∧ s.val < v)) := by
  refine ⟨fun s => rfl, ?_, fun s rnd rngOk => rfl, fun s => rfl, ?_⟩
  · intro s rnd rngOk
    show ((interval_start (interval_end_pre s rnd rngOk).1 rnd rngOk).1).val
      = s.val
    rw [interval_start_val, interval_end_pre_eq]
  · intro s v rnd rngOk
    rw [receive_value_val]
    by_cases h : s.val < v
    · right
      rw [if_pos h]
      exact ⟨rfl, h⟩
    · left
      rw [if_neg h]

/-- An inconsistent reception with i above I_MIN ends in the state
interval_start produces from the adopted state with i reset to
I_MIN. -/
theorem receive_value_inconsistent_reset (s : trickle_state) (v : Int)
    (rnd : Nat) (rngOk : Bool) (hne : s.val ≠ v) (hi : I_MIN < s.i) :
    (receive_value s v rnd rngOk).1
      = (interval_start
          { (if s.val < v then { s with val := v } else s) with i := I_MIN }
          rnd rngOk).1 := by
  unfold receive_value inconsistent_transmission
  rw [if_neg hne]
  dsimp only
  split <;> dsimp only

/-- An inconsistent reception with i at (or below) I_MIN performs at
most the adoption and nothing else. -/
theorem receive_value_inconsistent_noreset (s : trickle_state) (v : Int)
    (rnd : Nat) (rngOk : Bool) (hne : s.val ≠ v) (hi : ¬ I_MIN < s.i) :
    (receive_value s v rnd rngOk).1
      = (if s.val < v then { s with val := v } else s) := by
  unfold receive_value inconsistent_transmission
  rw [if_neg hne]
  dsimp only
  split <;> dsimp only

/-- interval_start places the wait point of the produced state within
[i / 2, i) of its interval, for any rng outcome. -/
theorem interval_start_t_bounds (s : trickle_state) (rnd : Nat)
    (rngOk : Bool) (h2 : 2 ≤ s.i) (hU : s.i < U32) :
    ((interval_start s rnd rngOk).1).i / 2 ≤ ((interval_start s rnd rngOk).1).t
      ∧ ((interval_start s rnd rngOk).1).t < ((interval_start s rnd rngOk).1).i := by
  rw [interval_start_i, interval_start_t]
  exact wait_point_bounds _ _ h2 hU

/-- The wait-point invariant on the struct: t lies in [i / 2, i). -/
def WInv (s : trickle_state) : Prop := s.i / 2 ≤ s.t ∧ s.t < s.i

/-- Every reachable state satisfies the wait-point invariant. -/
theorem reach_winv (y : Sys) (h : Reach y) : WInv y.st := by
  induction h with
  | init rnd rngOk =>
      rw [sys_interval_start_st]
      exact interval_start_t_bounds _ _ _ (by decide) (by decide)
  | fire y k e rnd rngOk hr hmem ih =>
      cases k
      · rw [sys_fire_tTimer_st]; exact ih
      · rw [sys_fire_iTimer_st]
        obtain ⟨h1, h2⟩ := reach_inv y hr
        rw [I_MIN_eq] at h1
        rw [I_MAX_VAL_eq] at h2
        have hm : (2 * y.st.i) % U32 = 2 * y.st.i :=
          Nat.mod_eq_of_lt (by rw [U32_eq]; omega)
        show WInv ((interval_start (interval_end_pre y.st rnd rngOk).1
          rnd rngOk).1)
        apply interval_start_t_bounds
        · rw [interval_end_pre_eq]
          show 2 ≤ (if I_MAX_VAL < (2 * y.st.i) % U32 then I_MAX_VAL
            else (2 * y.st.i) % U32)
          rw [hm, I_MAX_VAL_eq]
          split <;> omega
        · rw [interval_end_pre_eq]
          show (if I_MAX_VAL < (2 * y.st.i) % U32 then I_MAX_VAL
            else (2 * y.st.i) % U32) < U32
          rw [hm, I_MAX_VAL_eq, U32_eq]
          split <;> omega
  | recv y v rnd rngOk hr h0 h1 ih =>
      rw [sys_receive_st]
      by_cases hc : y.st.val = v
      · unfold receive_value
        rw [if_pos hc]
        exact ih
      · by_cases hr2 : I_MIN < y.st.i
        · rw [receive_value_inconsistent_reset _ _ _ _ hc hr2]
          exact interval_start_t_bounds _ _ _
            (by decide : (2 : Nat) ≤ I_MIN) (by decide : I_MIN < U32)
        · rw [receive_value_inconsistent_noreset _ _ _ _ hc hr2]
          split
          · exact ih
          · exact ih

/-- C3: every reachable state keeps its wait point t within
[i / 2, i) of its current interval, and every further interval start
from a reachable state, for any rng outcome, again chooses a wait point
within [i / 2, i). -/
theorem wait_point_in_second_half (y : Sys) (rnd : Nat) (rngOk : Bool)
    (h : Reach y) :
    (y.st.i / 2 ≤ y.st.t ∧ y.st.t < y.st.i)
    ∧ (y.st.i / 2 ≤ ((interval_start y.st rnd rngOk).1).t
        ∧ ((interval_start y.st rnd rngOk).1).t < y.st.i) := by
  refine ⟨reach_winv y h, ?_⟩
  obtain ⟨h1, h2⟩ := reach_inv y h
  rw [I_MIN_eq] at h1
  rw [I_MAX_VAL_eq] at h2
  rw [interval_start_t]
  apply wait_point_bounds
  · omega
  · rw [U32_eq]; omega

/-- The system state right after main has initialized and started the
first interval, with rng outcome 0. -/
def y_init : Sys := (sys_interval_start sys_init 0 true).1

/-- Witness for C3 at the first reachable state. -/
theorem wait_point_in_second_half_witness :
    Reach y_init
    ∧ ((y_init.st.i / 2 ≤ y_init.st.t ∧ y_init.st.t < y_init.st.i)
      ∧ (y_init.st.i / 2 ≤ ((interval_start y_init.st 5 true).1).t
          ∧ ((interval_start y_init.st 5 true).1).t < y_init.st.i)) :=
  ⟨Reach.init 0 true,
   wait_point_in_second_half y_init 5 true (Reach.init 0 true)⟩

/-- The i component after interval_end under the invariant bound, as a
min with the cap. -/
theorem interval_end_i_min (s : trickle_state) (rnd : Nat) (rngOk : Bool)
    (h : s.i ≤ I_MAX_VAL) :
    ((interval_end s rnd rngOk).1).i = min (2 * s.i) I_MAX_VAL := by
  rw [I_MAX_VAL_eq] at h ⊢
  have hm : (2 * s.i) % U32 = 2 * s.i :=
    Nat.mod_eq_of_lt (by rw [U32_eq]; omega)
  rw [interval_end_i, hm, I_MAX_VAL_eq]
  split <;> omega

/-- Iterating interval_end from any state below the cap yields
min (i * 2 ^ n) I_MAX_VAL. -/
theorem ends_foldl_i (l : List (Nat × Bool)) (s : trickle_state)
    (h : s.i ≤ I_MAX_VAL) :
    ((l.foldl (fun s p => (interval_end s p.1 p.2).1) s)).i
      = min (s.i * 2 ^ l.length) I_MAX_VAL := by
  induction l generalizing s with
  | nil =>
      rw [I_MAX_VAL_eq] at h ⊢
      simp only [List.foldl_nil, List.length_nil, pow_zero, Nat.mul_one]
      omega
  | cons p l ih =>
      rw [List.foldl_cons]
      have hstep := interval_end_i_min s p.1 p.2 h
      have h2 : ((interval_end s p.1 p.2).1).i ≤ I_MAX_VAL := by
        rw [hstep]; exact min_le_right _ _
      rw [ih _ h2, hstep, List.length_cons, pow_succ]
      have hm : (1 : Nat) ≤ 2 ^ l.length :=
        Nat.one_le_iff_ne_zero.mpr (pow_ne_zero _ (by norm_num))
      rcases Nat.le_total (2 * s.i) I_MAX_VAL with hc | hc
      · rw [min_eq_left hc]
        congr 1
        ring
      · rw [min_eq_right hc]
        have hA : I_MAX_VAL ≤ I_MAX_VAL * 2 ^ l.length := by
          calc I_MAX_VAL = I_MAX_VAL * 1 := by ring
          _ ≤ I_MAX_VAL * 2 ^ l.length := Nat.mul_le_mul_left _ hm
        have hB : I_MAX_VAL ≤ s.i * (2 ^ l.length * 2) := by
          calc I_MAX_VAL ≤ 2 * s.i := hc
          _ = 2 * s.i * 1 := by ring
          _ ≤ 2 * s.i * 2 ^ l.length := Nat.mul_le_mul_left _ hm
          _ = s.i * (2 ^ l.length * 2) := by ring
        rw [min_eq_right hA, min_eq_right hB]

/-- C4: every reachable state keeps i between I_MIN and the cap
I_MIN * 2 ^ I_MAX; interval_end doubles and clamps; and n interval ends
with no inbound traffic from the initial state give
min (I_MIN * 2 ^ n) (I_MIN * 2 ^ I_MAX). -/
theorem interval_doubling_bounds :
    (∀ y : Sys, Reach y →
        I_MIN ≤ y.st.i ∧ y.st.i ≤ I_MIN * 2 ^ I_MAX)
    ∧ (∀ (s : trickle_state) (rnd : Nat) (rngOk : Bool),
        s.i ≤ I_MIN * 2 ^ I_MAX →
        ((interval_end s rnd rngOk).1).i
          = min (2 * s.i) (I_MIN * 2 ^ I_MAX))
    ∧ (∀ l : List (Nat × Bool),
        ((l.foldl (fun s p => (interval_end s p.1 p.2).1)
            initialize_state)).i
          = min (I_MIN * 2 ^ l.length) (I_MIN * 2 ^ I_MAX)) := by
  refine ⟨?_, ?_, ?_⟩
  · intro y h
    obtain ⟨h1, h2⟩ := reach_inv y h
    rw [cap_eq]
    exact ⟨h1, h2⟩
  · intro s rnd rngOk h
    rw [cap_eq] at h ⊢
    exact interval_end_i_min s rnd rngOk h
  · intro l
    rw [cap_eq]
    exact ends_foldl_i l initialize_state (by decide)

/-- Witness for C4 at the first reachable state and the initial
struct. -/
theorem interval_doubling_bounds_witness :
    (Reach y_init
      ∧ I_MIN ≤ y_init.st.i ∧ y_init.st.i ≤ I_MIN * 2 ^ I_MAX)
    ∧ (initialize_state.i ≤ I_MIN * 2 ^ I_MAX
      ∧ ((interval_end initialize_state 0 true).1).i
          = min (2 * initialize_state.i) (I_MIN * 2 ^ I_MAX)) :=
  ⟨⟨Reach.init 0 true, interval_doubling_bounds.1 y_init (Reach.init 0 true)⟩,
   ⟨by decide, interval_doubling_bounds.2.1 initialize_state 0 true (by decide)⟩⟩

/-- C5 (amended): an inconsistent reception resets i to I_MIN and
starts a new interval when i was above I_MIN, and does nothing beyond
the possible adoption when i is already at I_MIN. -/
theorem inconsistent_reception_reset_behavior (s : trickle_state) (v : Int)
    (rnd : Nat) (rngOk : Bool) (hne : s.val ≠ v) :
    (I_MIN < s.i →
      (receive_value s v rnd rngOk).1
        = (interval_start
            { (if s.val < v then { s with val := v } else s) with i := I_MIN }
            rnd rngOk).1)
    ∧ (¬ I_MIN < s.i →
      (receive_value s v rnd rngOk).1
        = (if s.val < v then { s with val := v } else s)) :=
  ⟨receive_value_inconsistent_reset s v rnd rngOk hne,
   receive_value_inconsistent_noreset s v rnd rngOk hne⟩

/-- A concrete state in the middle of a large interval, holding value
zero. -/
def s_mid : trickle_state :=
  { i := 2000, t := 1500, c := 1, val := 0, start_test := true }

/-- Witness for C5 (amended) at a concrete inconsistent reception. -/
theorem inconsistent_reception_reset_behavior_witness :
    (s_mid.val ≠ 1 ∧ I_MIN < s_mid.i)
    ∧ (receive_value s_mid 1 0 true).1
        = (interval_start
            { (if s_mid.val < 1 then { s_mid with val := 1 } else s_mid)
              with i := I_MIN } 0 true).1 :=
  ⟨by decide,
   (inconsistent_reception_reset_behavior s_mid 1 0 true (by decide)).1
     (by decide)⟩

/-- The system state after the first interval end: the interval has
doubled to 2000 and the timers of epoch 2 are pending along with the
unfired t timer of epoch 1. -/
def y_grown : Sys := (sys_fire y_init TKind.iTimer 1 0 true).1

/-- The system state after y_grown receives the inconsistent value 1:
i is back at I_MIN under epoch 3, while the epoch-2 timers of the
abandoned 2000 ms interval are still pending. -/
def y_reset : Sys := (sys_receive y_grown 1 0 true).1

/-- The reset state y_reset is reachable: initialization, one interval
end, then an inconsistent reception of value 1. -/
theorem reach_y_reset : Reach y_reset :=
  Reach.recv y_grown 1 0 true
    (Reach.fire y_init TKind.iTimer 1 0 true (Reach.init 0 true) (by decide))
    (by decide) (by decide)

/-- C5 counterexample: after the inconsistency-triggered reset, an
interval timer armed under the previous interval is still pending, and
firing it changes the state - the previous interval timers are not
invalidated by the code. -/
theorem stale_timer_survives_reset :
    Reach y_reset
    ∧ y_reset.st.i = I_MIN
    ∧ (TKind.iTimer, 2) ∈ y_reset.pending
    ∧ ((sys_fire y_reset TKind.iTimer 2 0 true).1).st.i = 2 * I_MIN
    ∧ ((sys_fire y_reset TKind.iTimer 2 0 true).1).st ≠ y_reset.st :=
  ⟨reach_y_reset, by decide, by decide, by decide, by decide⟩

/-- C1: the callbacks t_timer_fired and interval_timer_fired run their
handlers with no staleness check, so the interval timer armed under
epoch 2 (the abandoned 2000 ms interval), fired after the reset that
started epoch 3, still runs interval_end and mutates state belonging to
epoch 3 - the claimed stale-callback discard does not exist in the
code. -/
theorem stale_callback_mutates_new_epoch :
    Reach y_reset
    ∧ y_reset.epoch = 3
    ∧ (TKind.iTimer, 2) ∈ y_reset.pending
    ∧ (2 : Nat) ≠ y_reset.epoch
    ∧ ((sys_fire y_reset TKind.iTimer 2 0 true).1).st ≠ y_reset.st :=
  ⟨reach_y_reset, by decide, by decide, by decide, by decide⟩

/-- Bytes written by transmit (lines 196-203): the payload int is
stored whole at the start of the packet buffer and the frame is sent
with length sizeof(int) = 4; the target (ARM Cortex-M, crt1.c) is
little-endian, so the payload is the four little-endian bytes of the
32-bit two-complement representation of the value. -/
def transmit_bytes (payload : Int) : List Nat :=
  let u : Nat := (payload % (2 ^ 32 : Int)).toNat
  [u % 2 ^ 8, u / 2 ^ 8 % 2 ^ 8, u / 2 ^ 16 % 2 ^ 8, u / 2 ^ 24 % 2 ^ 8]

/-- Payload handling of receive_frame (lines 163-167): payloads shorter
than sizeof(int) are dropped; otherwise only the first payload byte is
read, through plain char - which is unsigned on the ARM EABI target -
and widened to int. -/
def receive_decode (payload : List Nat) : Option Int :=
  if payload.length < 4 then none
  else some (Int.ofNat (payload.headI % 2 ^ 8))

/-- Stated from the claim, for comparison: the first payload byte read
through a signed char, i.e. the sign-extended low byte of the value. -/
def claimed_sign_extended_byte (v : Int) : Int :=
  let b : Nat := (v % (2 ^ 8 : Int)).toNat
  if b < 2 ^ 7 then (b : Int) else (b : Int) - 2 ^ 8

/-- C10 counterexample: transmitting 255 makes the receiver decode 255,
not the sign-extended -1 the claim predicts, because plain char is
unsigned on this target. -/
theorem transmit_receive_not_sign_extended :
    receive_decode (transmit_bytes 255) = some 255
    ∧ claimed_sign_extended_byte 255 = -1
    ∧ receive_decode (transmit_bytes 255)
        ≠ some (claimed_sign_extended_byte 255) := by
  refine ⟨by decide, by decide, by decide⟩

/-- C10 (amended): transmit writes the full value as four little-endian
bytes, reception decodes only the first payload byte zero-extended, so
the receiver sees the low byte of the value and the round trip is exact
whenever 0 <= V <= 255. -/
theorem transmit_receive_round_trip :
    (∀ V : Int, (transmit_bytes V).length = 4)
    ∧ (∀ V : Int, receive_decode (transmit_bytes V) = some (V % 2 ^ 8))
    ∧ (∀ V : Int, 0 ≤ V → V ≤ 255 →
        receive_decode (transmit_bytes V) = some V) := by
  have key : ∀ V : Int,
      receive_decode (transmit_bytes V) = some (V % 2 ^ 8) := by
    intro V
    simp only [receive_decode, transmit_bytes, List.length_cons,
      List.length_nil, List.headI]
    norm_num
    omega
  refine ⟨fun V => rfl, key, ?_⟩
  intro V h0 h1
  rw [key V]
  simp only [Option.some.injEq]
  omega

/-- Witness for C10 (amended) at the value 42. -/
theorem transmit_receive_round_trip_witness :
    ((0 : Int) ≤ 42 ∧ (42 : Int) ≤ 255)
    ∧ receive_decode (transmit_bytes 42) = some 42 :=
  ⟨by decide, transmit_receive_round_trip.2.2 42 (by decide) (by decide)⟩

/-- C6: adoption is monotonic - a reception changes current_value to
the received value exactly when the latter is strictly larger, and a
smaller received value never changes current_value yet still causes the
interval reset whenever i is above I_MIN. -/
theorem adoption_monotonic :
    (∀ (s : trickle_state) (v : Int) (rnd : Nat) (rngOk : Bool),
        ((receive_value s v rnd rngOk).1).val
          = if s.val < v then v else s.val)
    ∧ (∀ (s : trickle_state) (v : Int) (rnd : Nat) (rngOk : Bool),
        v < s.val →
        ((receive_value s v rnd rngOk).1).val = s.val
          ∧ (I_MIN < s.i →
              ((receive_value s v rnd rngOk).1).i = I_MIN
                ∧ ((receive_value s v rnd rngOk).1).c = 0)) := by
  refine ⟨receive_value_val, ?_⟩
  intro s v rnd rngOk h
  have hne : s.val ≠ v := fun hq => absurd h (by rw [hq]; exact lt_irrefl v)
  refine ⟨?_, ?_⟩
  · rw [receive_value_val, if_neg (not_lt.mpr (le_of_lt h))]
  · intro hi
    rw [receive_value_inconsistent_reset s v rnd rngOk hne hi,
      interval_start_i, interval_start_c]
    exact ⟨rfl, rfl⟩

/-- Witness for C6 at a concrete smaller-value reception. -/
theorem adoption_monotonic_witness :
    ((-9 : Int) < s_mid.val
      ∧ ((receive_value s_mid (-9) 0 true).1).val = s_mid.val)
    ∧ (I_MIN < s_mid.i
      ∧ ((receive_value s_mid (-9) 0 true).1).i = I_MIN
      ∧ ((receive_value s_mid (-9) 0 true).1).c = 0) :=
  ⟨⟨by decide, (adoption_monotonic.2 s_mid (-9) 0 true (by decide)).1⟩,
   ⟨by decide, (adoption_monotonic.2 s_mid (-9) 0 true (by decide)).2 (by decide)⟩⟩

end Trickle
